import Mathlib

/-!
# Verification of the Quantum News ingestion & summarization pipeline

Shallow embedding of the core pipeline of `quantum_news_hub`:
`enhanced_rss_parser.py` (`QuantumRSSParser`: the Article Store operations,
the Content Extractor Adapter and the Feed Fetcher / Ingestion entry point
`fetch_latest_article`) and `enhanced_agent.py` (`QuantumNewsAgent`:
the Summarizer Adapter `summarize_article_content`, the Ingestion
Orchestrator `process_new_articles` and the Backlog Reconciler
`process_existing_articles_without_summary`).

The sqlite table `quantum_news_rss` is modelled as a list of rows plus the
next AUTOINCREMENT id; `CURRENT_TIMESTAMP` is modelled as a `Nat` passed in
by the caller.  External collaborators (the feed document, the page
extractor, the generative summarizer) are parameters of the operations that
consume them.  Python truthiness on optional strings (`if summary:`) is
modelled explicitly: both `None` and the empty string are falsy.
-/

namespace QuantumNews

/-- One persisted row of the sqlite table `quantum_news_rss`
(`enhanced_rss_parser.py`, `setup_database`):
`id, title, author, publish_date, article_link, content, ai_summary,
created_at, updated_at`. `ai_summary` is nullable. -/
structure Article where
  id : Nat
  title : String
  author : String
  publish_date : String
  link : String
  content : String
  summary : Option String
  created_at : Nat
  updated_at : Nat
deriving Repr, DecidableEq

/-- The Article Store: the rows of `quantum_news_rss` in rowid order,
together with the next id the AUTOINCREMENT column will assign. -/
structure Store where
  rows : List Article
  nextId : Nat
deriving Repr, DecidableEq

/-- A fresh database as created by `setup_database`: no rows, sqlite
AUTOINCREMENT starts assigning ids at 1. -/
def emptyStore : Store := { rows := [], nextId := 1 }

/-- One entry of the parsed RSS feed.  `feedparser` entries are dicts;
the code reads them with `entry.get(key, default)`, so every field is
optional here. -/
structure Entry where
  link : Option String
  title : Option String
  author : Option String
  published : Option String
deriving Repr, DecidableEq

/-- The result of `feedparser.parse`: the `bozo` malformed-document flag
and the ordered entry list (most recent first). -/
structure Feed where
  bozo : Bool
  entries : List Entry
deriving Repr, DecidableEq

/-- What `newspaper.Article` yields after a successful `download()` +
`parse()`: possibly-empty title and body text, an author list, an optional
publish date (already rendered as a string).  `none` for the whole page
models an exception raised during download/parse. -/
structure RawPage where
  title : String
  text : String
  authors : List String
  publish_date : Option String
deriving Repr, DecidableEq

/-- The normalized record returned by `extract_article_content`:
the dict `{'title', 'content', 'authors', 'publish_date'}`. -/
structure ExtractedContent where
  title : String
  content : String
  authors : String
  publish_date : String
deriving Repr, DecidableEq

/-- Embeds `QuantumRSSParser.extract_article_content` (lines 42-57): on a raised
exception (modelled by `page = none`) return `None`; otherwise apply the
field fallbacks of the Python `or` / conditional expressions:
`article.title or 'No Title'`, `article.text or 'No Content'`,
`', '.join(article.authors) if article.authors else 'Unknown Author'`,
`article.publish_date.strftime(...) if article.publish_date else str(date.today())`.
An empty string is falsy in Python, hence the `= ""` tests. -/
def extract_article_content (today : String) (page : Option RawPage) :
    Option ExtractedContent :=
  match page with
  | none => none
  | some p =>
    some
      { title := if p.title = "" then "No Title" else p.title
        content := if p.text = "" then "No Content" else p.text
        authors :=
          if p.authors = [] then "Unknown Author"
          else String.intercalate ", " p.authors
        publish_date := p.publish_date.getD today }

/-- Embeds `QuantumRSSParser.article_exists` (lines 59-66):
`SELECT id FROM quantum_news_rss WHERE article_link = ?` and test whether a
row came back. -/
def article_exists (st : Store) (link : String) : Bool :=
  st.rows.any (fun a => a.link = link)

/-- Embeds `QuantumRSSParser.save_article` (lines 68-89): `INSERT INTO
quantum_news_rss (title, author, publish_date, article_link, content)
VALUES (...)`.  The UNIQUE constraint on `article_link` makes sqlite raise
`IntegrityError` on a duplicate link; the code catches it and returns
`None` with the store untouched.  On success the new row gets the
AUTOINCREMENT id, server-defaulted timestamps, `ai_summary` NULL, and the
id is returned. -/
def save_article (st : Store) (title author publish_date link content : String)
    (now : Nat) : Option Nat × Store :=
  if article_exists st link then
    (none, st)
  else
    (some st.nextId,
      { rows := st.rows ++
          [{ id := st.nextId, title := title, author := author,
             publish_date := publish_date, link := link, content := content,
             summary := none, created_at := now, updated_at := now }]
        nextId := st.nextId + 1 })

/-- The dict returned by a successful `fetch_latest_article`:
`{'id', 'title', 'author', 'publish_date', 'link', 'content'}`. -/
structure NewArticle where
  id : Nat
  title : String
  author : String
  publish_date : String
  link : String
  content : String
deriving Repr, DecidableEq

/-- Embeds `QuantumRSSParser.fetch_latest_article` (lines 91-144).  In order:
parse the feed; on `feed.bozo` log and return `None`; on an empty entry
list return `None`; take `feed.entries[0]`, read its link
(`entry.get("link", "")`); if `article_exists` return `None` (duplicate
suppressed before extraction); call the extractor, `None` on its failure;
merge feed fields over extracted fields (`entry.get(key, fallback)`);
`save_article`; Python `if article_id:` is falsy for both `None` and `0`,
so only a nonzero assigned id yields the article dict, else `None`. -/
def fetch_latest_article (feed : Feed)
    (extract : String → Option ExtractedContent) (st : Store) (now : Nat) :
    Option NewArticle × Store :=
  if feed.bozo then (none, st)
  else
    match feed.entries with
    | [] => (none, st)
    | latest :: _ =>
      let link := latest.link.getD ""
      if article_exists st link then (none, st)
      else
        match extract link with
        | none => (none, st)
        | some ad =>
          let title := latest.title.getD ad.title
          let author := latest.author.getD ad.authors
          let publish_date := latest.published.getD ad.publish_date
          let content := ad.content
          match save_article st title author publish_date link content now with
          | (some article_id, st') =>
            if article_id = 0 then (none, st')
            else
              (some { id := article_id, title := title, author := author,
                      publish_date := publish_date, link := link,
                      content := content }, st')
          | (none, st') => (none, st')

/-- Python truthiness of a row's `ai_summary` column being pending:
`ai_summary IS NULL OR ai_summary = ''`. -/
def row_pending (a : Article) : Bool := a.summary.getD "" = ""

/-- Embeds `QuantumRSSParser.get_articles_without_summary` (lines 146-157):
`SELECT id, title, content, article_link FROM quantum_news_rss WHERE
ai_summary IS NULL OR ai_summary = ''`, in rowid order. -/
def get_articles_without_summary (st : Store) :
    List (Nat × String × String × String) :=
  (st.rows.filter row_pending).map (fun a => (a.id, a.title, a.content, a.link))

/-- Embeds `QuantumRSSParser.update_article_summary` (lines 159-177):
`UPDATE quantum_news_rss SET ai_summary = ?, updated_at = CURRENT_TIMESTAMP
WHERE id = ?`; returns `True` on success. -/
def update_article_summary (st : Store) (article_id : Nat) (summary : String)
    (now : Nat) : Bool × Store :=
  (true,
    { st with
        rows := st.rows.map (fun a =>
          if a.id = article_id then
            { a with summary := some summary, updated_at := now }
          else a) })

/-- One event of the summarization collaborator's response stream
(`google.adk` runner events), as inspected by `summarize_article_content`:
`event.is_final_response()`, the texts of `event.content.parts` (the Python
check `event.content and event.content.parts` is falsy both when `content`
is `None` and when `parts` is empty, so a plain list suffices), the
truthiness of `event.actions and event.actions.escalate`, and
`event.error_message`. -/
structure SumEvent where
  is_final : Bool
  contentParts : List String
  escalate : Bool
  error_message : Option String
deriving Repr, DecidableEq

/-- The truncation step of `QuantumNewsAgent.summarize_article_content`
(lines 35-39): `max_content_length = 8000; if len(content) >
max_content_length: content = content[:8000] + "..."`.  `content[:8000]`
keeps the first 8000 characters. -/
def truncate_content (content : String) : String :=
  if content.length > 8000 then String.mk (content.data.take 8000) ++ "..."
  else content

/-- The fixed prompt text wrapped around the (truncated) article content in
`summarize_article_content` (lines 41-48). -/
def mkPrompt (content : String) : String :=
  "\n            Please summarize the following quantum computing article in exactly 250 words.\n            Make the summary engaging and accessible to general readers while preserving the key technical concepts.\n            Use plain English and avoid jargon where possible.\n\n            Article content:\n            " ++ content ++ "\n            "

/-- Python truthiness of `s or d` for an optional string `s`: both `None`
and the empty string are falsy and select the default `d`. -/
def str_or (s : Option String) (d : String) : String :=
  match s with
  | none => d
  | some t => if t = "" then d else t

/-- The event loop of `summarize_article_content` (lines 66-81): consume
the stream; at a final response with a nonempty parts list return
`parts[0].text`; at a final response without content whose actions
escalate, log `"Agent escalated: " + (event.error_message or 'No specific
message.')` and return `None` — the Python `or` falls back to the default
for both `None` and the empty string (`str_or`); any other event
(intermediate, or final with neither content nor escalation) is skipped;
an exhausted stream yields `None`.  The second component collects the
error log lines. -/
def run_events : List SumEvent → Option String × List String
  | [] => (none, [])
  | e :: rest =>
    if e.is_final then
      match e.contentParts with
      | t :: _ => (some t, [])
      | [] =>
        if e.escalate then
          (none, ["Agent escalated: " ++
            str_or e.error_message "No specific message."])
        else run_events rest
    else run_events rest

/-- Whether `run_events` stops at this event: a final response that either
carries content parts or escalates.  Any other event is skipped by the
loop. -/
def event_consumed (e : SumEvent) : Bool :=
  e.is_final && (!e.contentParts.isEmpty || e.escalate)

/-- Embeds `QuantumNewsAgent.summarize_article_content` (lines 27-85): truncate
the content, build the prompt, run the collaborator and consume its event
stream.  `transport_fail = true` models an exception raised anywhere in the
try block (session setup, runner transport): it is caught and converted to
`None` (line 83-85).  `events` maps the submitted prompt to the response
stream it provokes. -/
def summarize_article_content (transport_fail : Bool)
    (events : String → List SumEvent) (content : String) :
    Option String × List String :=
  if transport_fail then (none, [])
  else run_events (events (mkPrompt (truncate_content content)))

/-- Python truthiness of the summarizer's result as tested by
`if summary:` — `None` and the empty string are both falsy. -/
def summary_ok (s : Option String) : Bool := s.getD "" ≠ ""

/-- Result dict of `QuantumNewsAgent.process_new_articles`:
`{'status': 'success', 'article': ..., 'summary': ...}`,
`{'status': 'no_new_articles'}` or `{'status': 'error', 'message': ...}`. -/
inductive IngestResult where
  | success (article : NewArticle) (summary : String)
  | no_new_articles
  | error (message : String)
deriving Repr, DecidableEq

/-- Embeds `QuantumNewsAgent.process_new_articles` (lines 87-121): fetch the
latest article; if there is one, summarize its content (the summarizer is
abstracted to its result `summ : String → Option String`); on a truthy
summary persist it via `update_article_summary` (which returns `True`,
yielding status `success`); on a falsy summary report
`{'status': 'error', 'message': 'Failed to generate summary'}`; with no
new article report `{'status': 'no_new_articles'}`. -/
def process_new_articles (feed : Feed)
    (extract : String → Option ExtractedContent)
    (summ : String → Option String) (st : Store) (now : Nat) :
    IngestResult × Store :=
  match fetch_latest_article feed extract st now with
  | (some new_article, st') =>
    let summary := summ new_article.content
    if summary_ok summary then
      let s := summary.getD ""
      let (success, st'') := update_article_summary st' new_article.id s now
      if success then (.success new_article s, st'')
      else (.error "Failed to save summary", st'')
    else (.error "Failed to generate summary", st')
  | (none, st') => (.no_new_articles, st')

/-- The loop body of `process_existing_articles_without_summary`
(lines 129-142): for each `(article_id, title, content, link)` row call the
summarizer; on a truthy summary persist it and increment
`processed_count`; otherwise log and continue.  The summarizer is
abstracted as a function of the row's id and content (its outcome may
differ per call of the external service). -/
def backlog_loop (summ : Nat → String → Option String) (now : Nat) :
    List (Nat × String × String × String) → Store → Nat → Nat × Store
  | [], st, processed_count => (processed_count, st)
  | (article_id, _title, content, _link) :: rest, st, processed_count =>
    let summary := summ article_id content
    if summary_ok summary then
      let (success, st') :=
        update_article_summary st article_id (summary.getD "") now
      if success then backlog_loop summ now rest st' (processed_count + 1)
      else backlog_loop summ now rest st' processed_count
    else backlog_loop summ now rest st processed_count

/-- Embeds `QuantumNewsAgent.process_existing_articles_without_summary`
(lines 123-148): fetch all pending rows once, loop over them, and report
`{'processed_count': ..., 'total_articles': len(articles)}`. -/
def process_existing_articles_without_summary
    (summ : Nat → String → Option String) (st : Store) (now : Nat) :
    (Nat × Nat) × Store :=
  let articles := get_articles_without_summary st
  let (processed_count, st') := backlog_loop summ now articles st 0
  ((processed_count, articles.length), st')

/-! ## Concrete fixtures used by witnesses and counterexamples

Field order of `Article`:
`⟨id, title, author, publish_date, link, content, summary, created_at, updated_at⟩`;
of `Entry`: `⟨link, title, author, published⟩`;
of `RawPage`: `⟨title, text, authors, publish_date⟩`;
of `ExtractedContent`: `⟨title, content, authors, publish_date⟩`;
of `SumEvent`: `⟨is_final, contentParts, escalate, error_message⟩`. -/

/-- A one-row store holding an article with link `"L"`. -/
def storeL : Store := ⟨[⟨1, "T", "A", "D", "L", "B", none, 0, 0⟩], 2⟩

/-- A two-row store: row 1 pending, row 2 already summarized. -/
def storeTwo : Store :=
  ⟨[⟨1, "T1", "A1", "D1", "L1", "B1", none, 3, 3⟩,
    ⟨2, "T2", "A2", "D2", "L2", "B2", some "S2", 4, 4⟩], 3⟩

/-- A store with three pending articles (ids 1, 2, 3). -/
def storeThree : Store :=
  ⟨[⟨1, "T1", "A1", "D1", "L1", "B1", none, 0, 0⟩,
    ⟨2, "T2", "A2", "D2", "L2", "B2", some "", 0, 0⟩,
    ⟨3, "T3", "A3", "D3", "L3", "B3", none, 0, 0⟩], 4⟩

/-- A feed entry carrying only link `"L2"`. -/
def entryL2 : Entry := ⟨some "L2", none, none, none⟩

/-- A feed entry carrying only link `"L"` (the link already in `storeL`). -/
def entryL : Entry := ⟨some "L", none, none, none⟩

/-- A well-formed feed whose single entry has link `"L"`. -/
def feedL : Feed := ⟨false, [entryL]⟩

/-- A well-formed feed whose single (most recent) entry has link `"L2"`. -/
def feedL2 : Feed := ⟨false, [entryL2]⟩

/-- A malformed feed (`feed.bozo` set by `feedparser`). -/
def bozoFeed : Feed := ⟨true, []⟩

/-- A well-formed feed with zero entries. -/
def emptyFeed : Feed := ⟨false, []⟩

/-- An extractor that always succeeds with a fixed record. -/
def okExtract : String → Option ExtractedContent :=
  fun _ => some ⟨"T", "B", "A", "D"⟩

/-- An extractor that always fails (network/parse error → `None`). -/
def noneExtract : String → Option ExtractedContent := fun _ => none

/-- A summarizer result that is always `None`. -/
def noneSumm : String → Option String := fun _ => none

/-- A summarizer result that always succeeds with `"S"`. -/
def okSumm : String → Option String := fun _ => some "S"

/-- A backlog summarizer that fails exactly on article id 2. -/
def summFail2 : Nat → String → Option String :=
  fun i _ => if i = 2 then none else some "S"

/-- A raw page whose parse succeeded but every field came back empty. -/
def emptyPage : RawPage := ⟨"", "", [], none⟩

/-- An intermediate (non-final) collaborator event. -/
def interEvent : SumEvent := ⟨false, [], false, none⟩

/-- A final collaborator event that escalates with message `"quota"`. -/
def escEvent : SumEvent := ⟨true, [], true, some "quota"⟩

/-- A collaborator response stream: one intermediate event, then a final
escalation. -/
def escEvents : String → List SumEvent := fun _ => [interEvent, escEvent]

/-- A final escalation event whose error message is the empty string —
falsy in Python, so the logged message falls back to the default. -/
def escEventEmpty : SumEvent := ⟨true, [], true, some ""⟩

/-- A collaborator response stream ending in an escalation with an empty
error message. -/
def escEventsEmpty : String → List SumEvent := fun _ => [escEventEmpty]

/-! ## Helper lemmas shared by several claims -/

theorem update_rows_eq (st : Store) (i : Nat) (s : String) (n : Nat) :
    (update_article_summary st i s n).2.rows
      = st.rows.map (fun a =>
          if a.id = i then { a with summary := some s, updated_at := n }
          else a) := rfl

theorem rows_length_update (st : Store) (i : Nat) (s : String) (n : Nat) :
    (update_article_summary st i s n).2.rows.length = st.rows.length := by
  simp [update_rows_eq]

theorem article_exists_update (st : Store) (i : Nat) (s : String) (n : Nat)
    (l : String) :
    article_exists (update_article_summary st i s n).2 l = article_exists st l := by
  simp only [article_exists, update_rows_eq, List.any_map]
  congr 1
  funext a
  by_cases h : a.id = i <;> simp [h, Function.comp]

theorem article_exists_of_mem (st : Store) (a : Article) (ha : a ∈ st.rows) :
    article_exists st a.link = true := by
  simp only [article_exists, List.any_eq_true]
  exact ⟨a, ha, by simp⟩

theorem update_fst (st : Store) (i : Nat) (s : String) (n : Nat) :
    (update_article_summary st i s n).1 = true := rfl

/-! ## C3: duplicate inserts are silently absorbed -/

/-- C3: link uniqueness is preserved by `save_article` and an attempted
insert of an Article whose link is already present leaves the store
completely unchanged and reports no error (the `IntegrityError` is caught
and mapped to `None`, which is a value, not an exception). -/
theorem save_duplicate_noop (st : Store) (t a p l c : String) (now : Nat) :
    (article_exists st l = true → save_article st t a p l c now = (none, st)) ∧
    ((st.rows.map Article.link).Nodup →
      (((save_article st t a p l c now).2).rows.map Article.link).Nodup) := by
  constructor
  · intro h
    simp [save_article, h]
  · intro h
    by_cases hex : article_exists st l
    · simp [save_article, hex, h]
    · have hl : l ∉ st.rows.map Article.link := by
        intro hmem
        rcases List.mem_map.mp hmem with ⟨b, hb, hbl⟩
        exact hex (hbl ▸ article_exists_of_mem st b hb)
      unfold save_article
      rw [if_neg hex]
      simp only [List.map_append, List.map_cons, List.map_nil]
      rw [List.nodup_append]
      refine ⟨h, List.nodup_singleton _, ?_⟩
      intro x hx hx2
      simp only [List.mem_singleton] at hx2
      subst hx2
      exact hl hx

/-- C3 witness: on a concrete one-row store with link `"L"`, a second
insert with link `"L"` is a no-op and uniqueness is preserved. -/
theorem save_duplicate_noop_witness :
    article_exists storeL "L" = true ∧
    save_article storeL "T2" "A2" "D2" "L" "B2" 9 = (none, storeL) := by
  refine ⟨by decide, ?_⟩
  exact (save_duplicate_noop storeL "T2" "A2" "D2" "L" "B2" 9).1 (by decide)

/-! ## C9: updating a summary only touches that row's summary/updated_at -/

/-- C9: `update_article_summary` succeeds and relates the old and new row
lists pointwise: every field except `summary` and `updated_at` of every
row is preserved (in particular `created_at`), a row whose id differs from
the target is completely unchanged, and a row with the target id gets
exactly the new summary and the refreshed timestamp. -/
theorem update_summary_frame (st : Store) (i : Nat) (s : String) (now : Nat) :
    (update_article_summary st i s now).1 = true ∧
    List.Forall₂ (fun a b =>
        b.id = a.id ∧ b.title = a.title ∧ b.author = a.author ∧
        b.publish_date = a.publish_date ∧ b.link = a.link ∧
        b.content = a.content ∧ b.created_at = a.created_at ∧
        (a.id ≠ i → b = a) ∧
        (a.id = i → b.summary = some s ∧ b.updated_at = now))
      st.rows (update_article_summary st i s now).2.rows := by
  refine ⟨rfl, ?_⟩
  rw [update_rows_eq]
  rw [List.forall₂_map_right_iff]
  rw [List.forall₂_same]
  intro a _
  by_cases h : a.id = i <;> simp [h]

/-- C9 witness: concrete two-row store; updating id 1 leaves row 2
untouched and row 1's other fields intact. -/
theorem update_summary_frame_witness :
    (update_article_summary storeTwo 1 "S1" 8).2.rows
      = [⟨1, "T1", "A1", "D1", "L1", "B1", some "S1", 3, 8⟩,
         ⟨2, "T2", "A2", "D2", "L2", "B2", some "S2", 4, 4⟩] ∧
    (update_article_summary storeTwo 1 "S1" 8).1 = true := by
  refine ⟨by decide, ?_⟩
  exact (update_summary_frame storeTwo 1 "S1" 8).1

/-! ## C7: input truncation policy of the Summarizer Adapter -/

/-- C7: the Summarizer Adapter submits at most 8000 characters of the
input text (plus the three-character marker `"..."`): text of at most 8000
characters is submitted unmodified with no marker, longer text is cut to
exactly its first 8000 characters followed by the marker, giving a
submitted content of exactly 8003 characters. -/
theorem summarizer_truncation (s : String) :
    (truncate_content s).length ≤ 8003 ∧
    (s.length ≤ 8000 → truncate_content s = s) ∧
    (8000 < s.length →
      truncate_content s = String.mk (s.data.take 8000) ++ "..." ∧
      (truncate_content s).length = 8003) := by
  by_cases h : s.length > 8000
  · have hd : s.data.length > 8000 := by
      obtain ⟨data⟩ := s
      simpa using h
    have he : truncate_content s = String.mk (s.data.take 8000) ++ "..." := by
      simp [truncate_content, h]
    have h3 : ("..." : String).length = 3 := rfl
    have hlen : (truncate_content s).length = 8003 := by
      rw [he]
      rw [String.length_append, String.length_mk, List.length_take, h3]
      omega
    exact ⟨by omega, fun hle => absurd h (by omega), fun _ => ⟨he, hlen⟩⟩
  · have he : truncate_content s = s := by
      simp [truncate_content, h]
    exact ⟨by rw [he]; omega, fun _ => he, fun hgt => absurd hgt h⟩

/-- C7 witness: a 3-character text passes through unmodified; a
8001-character text is truncated to exactly 8003 characters. -/
theorem summarizer_truncation_witness :
    truncate_content "abc" = "abc" ∧
    (truncate_content (String.mk (List.replicate 8001 'a'))).length = 8003 := by
  constructor
  · exact (summarizer_truncation "abc").2.1 (by decide)
  · exact ((summarizer_truncation (String.mk (List.replicate 8001 'a'))).2.2
      (by simp only [String.length_mk, List.length_replicate]; omega)).2

/-! ## C6: the Summarizer Adapter never throws; escalation yields None -/

theorem run_events_skip (pre rest : List SumEvent)
    (h : ∀ p ∈ pre, event_consumed p = false) :
    run_events (pre ++ rest) = run_events rest := by
  induction pre with
  | nil => rfl
  | cons p ps ih =>
    have hp := h p (by simp)
    simp only [event_consumed, Bool.and_eq_false_iff, Bool.or_eq_false_iff] at hp
    have ihr := ih (fun q hq => h q (by simp [hq]))
    rcases hp with hfin | ⟨hparts, hesc⟩
    · simpa [run_events, hfin] using ihr
    · have hparts' : p.contentParts = [] := by
        simpa [List.isEmpty_iff] using hparts
      cases hfin : p.is_final
      · simpa [run_events, hfin] using ihr
      · simpa [run_events, hfin, hparts', hesc] using ihr

/-- C6: the Summarizer Adapter resolves every failure into `None` rather
than an exception.  Any transport exception from the collaborator
(`transport_fail`) is caught and converted to `None`; and whenever the
response stream reaches a final event that carries no content but signals
an escalation, the adapter returns `None` and records the escalation
message `"Agent escalated: " + (event.error_message or 'No specific
message.')` in its log — where a `None` or empty `error_message` falls
back to the default, as Python's `or` does. -/
theorem summarizer_soft_failure (events : String → List SumEvent)
    (content : String) (pre post : List SumEvent) (e : SumEvent)
    (hstream : events (mkPrompt (truncate_content content)) = pre ++ e :: post)
    (hpre : ∀ p ∈ pre, event_consumed p = false)
    (hfin : e.is_final = true) (hparts : e.contentParts = [])
    (hesc : e.escalate = true) :
    summarize_article_content false events content
      = (none, ["Agent escalated: " ++
          str_or e.error_message "No specific message."]) ∧
    (summarize_article_content true events content).1 = none := by
  constructor
  · show run_events (events (mkPrompt (truncate_content content))) = _
    rw [hstream, run_events_skip pre (e :: post) hpre]
    simp [run_events, hfin, hparts, hesc]
  · rfl

/-- C6 witness: a stream with one intermediate event followed by a final
escalation with message `"quota"` makes the adapter return `None` and log
that message; one whose final escalation carries the empty string (falsy
in Python) logs the default `"No specific message."` instead. -/
theorem summarizer_soft_failure_witness :
    summarize_article_content false escEvents "some text"
      = (none, ["Agent escalated: quota"]) ∧
    summarize_article_content false escEventsEmpty "some text"
      = (none, ["Agent escalated: No specific message."]) := by
  constructor
  · exact (summarizer_soft_failure escEvents "some text" [interEvent] []
      escEvent rfl (by decide) rfl rfl rfl).1
  · exact (summarizer_soft_failure escEventsEmpty "some text" [] []
      escEventEmpty rfl (by simp) rfl rfl rfl).1

/-! ## C8: Feed Fetcher failure modes

The claim says a malformed feed makes the fetch **fail with a
`FeedParseError` exception**, distinct from the `None` returned for a
well-formed feed with zero entries.  In the code no such exception type
exists: `fetch_latest_article` tests `feed.bozo` and `return None`
(lines 97-99), exactly the value also returned for an empty entry list, so
the two conditions are indistinguishable to the caller.  The operation is
a total function into `Option NewArticle × Store` — there is no failure
channel besides `none`. -/

/-- C8 counterexample: a malformed (`bozo`) feed makes
`fetch_latest_article` return the plain value `(none, store)` — the very
same result as a well-formed feed with zero entries — rather than failing
with a distinct `FeedParseError`. -/
theorem fetch_bozo_counterexample :
    fetch_latest_article bozoFeed okExtract emptyStore 0 = (none, emptyStore) ∧
    fetch_latest_article emptyFeed okExtract emptyStore 0
      = fetch_latest_article bozoFeed okExtract emptyStore 0 := by
  exact ⟨rfl, rfl⟩

/-- C8 amended: the fetch-latest operation returns `None` — not an
exception — both when the underlying feed document cannot be parsed
(`bozo`) and when the feed parses but contains zero entries, leaving the
store untouched in both cases; and only the single most-recent entry is
ever considered: the result never depends on the older entries. -/
theorem fetch_latest_soft_errors (feed : Feed)
    (extract : String → Option ExtractedContent) (st : Store) (now : Nat)
    (e : Entry) (rest : List Entry) :
    (feed.bozo = true → fetch_latest_article feed extract st now = (none, st)) ∧
    (feed.bozo = false → feed.entries = [] →
      fetch_latest_article feed extract st now = (none, st)) ∧
    fetch_latest_article ⟨false, e :: rest⟩ extract st now
      = fetch_latest_article ⟨false, [e]⟩ extract st now := by
  refine ⟨fun h => by simp [fetch_latest_article, h], fun h1 h2 => ?_, rfl⟩
  simp [fetch_latest_article, h1, h2]

/-- C8 amended witness: concrete malformed feed, concrete empty feed, and
a two-entry feed whose second entry is ignored. -/
theorem fetch_latest_soft_errors_witness :
    fetch_latest_article bozoFeed noneExtract storeL 0 = (none, storeL) ∧
    fetch_latest_article emptyFeed noneExtract storeL 0 = (none, storeL) ∧
    fetch_latest_article ⟨false, [entryL2, ⟨some "OLD", none, none, none⟩]⟩
        noneExtract storeL 0
      = fetch_latest_article ⟨false, [entryL2]⟩ noneExtract storeL 0 := by
  refine ⟨?_, ?_, ?_⟩
  · exact (fetch_latest_soft_errors bozoFeed noneExtract storeL 0 entryL2 []).1 rfl
  · exact (fetch_latest_soft_errors emptyFeed noneExtract storeL 0 entryL2 []).2.1
      rfl rfl
  · exact (fetch_latest_soft_errors emptyFeed noneExtract storeL 0 entryL2
      [⟨some "OLD", none, none, none⟩]).2.2

/-! ## C2: outcome of a content-extraction failure

The claim (spec Scenario C) says the orchestrator reports status
`error("failed to extract content")`.  In the code,
`fetch_latest_article` maps an extraction failure to `return None`
(lines 116-118, the message only goes to the log), and
`process_new_articles` maps `None` to `{'status': 'no_new_articles'}`
(lines 115-117) — an extraction failure is therefore reported as
`no_new_articles`, not as an error. -/

/-- C2 counterexample: feed yields a fresh link `"L2"`, the extractor
returns `None` — the orchestrator reports `no_new_articles` (which is a
different constructor than any `error` status), and indeed no Article is
inserted. -/
theorem extract_failure_counterexample :
    process_new_articles feedL2 noneExtract noneSumm emptyStore 0
      = (.no_new_articles, emptyStore) ∧
    IngestResult.no_new_articles ≠ .error "failed to extract content" := by
  exact ⟨rfl, by decide⟩

/-- C2 amended: for every run in which the feed yields an entry whose link
is not yet in the Article Store and the Content Extractor Adapter returns
`None` for that link, the Ingestion Orchestrator terminates with status
`no_new_articles` (the extraction failure is only logged), and no Article
is inserted into the store. -/
theorem ingest_extract_failure (feed : Feed)
    (extract : String → Option ExtractedContent)
    (summ : String → Option String) (st : Store) (now : Nat)
    (e : Entry) (rest : List Entry)
    (hb : feed.bozo = false) (he : feed.entries = e :: rest)
    (hex : article_exists st (e.link.getD "") = false)
    (hfail : extract (e.link.getD "") = none) :
    process_new_articles feed extract summ st now = (.no_new_articles, st) := by
  simp [process_new_articles, fetch_latest_article, hb, he, hex, hfail]

/-- C2 amended witness: concrete single-entry feed with fresh link `"L2"`
against the empty store and an always-failing extractor. -/
theorem ingest_extract_failure_witness :
    process_new_articles feedL2 noneExtract noneSumm emptyStore 5
      = (.no_new_articles, emptyStore) :=
  ingest_extract_failure feedL2 noneExtract noneSumm emptyStore 5 entryL2 []
    rfl rfl (by decide) rfl

/-! ## C5: summarization failure leaves the inserted Article persisted

The behaviour the claim describes holds, except that the error message in
the code is `'Failed to generate summary'` (capital F,
`enhanced_agent.py` line 114), not `"failed to generate summary"`. -/

/-- C5 counterexample: with a fresh link, a succeeding extractor and a
summarizer returning `None`, the orchestrator's status is
`error "Failed to generate summary"`, which differs from the claimed
message string `"failed to generate summary"`. -/
theorem summary_failure_message_counterexample :
    (process_new_articles feedL2 okExtract noneSumm emptyStore 0).1
      = .error "Failed to generate summary" ∧
    IngestResult.error "Failed to generate summary"
      ≠ .error "failed to generate summary" := by
  exact ⟨rfl, by decide⟩

/-- C5 amended: for every run in which a new Article is inserted and the
subsequent Summarizer Adapter call returns `None`, the orchestrator
terminates with status `error` carrying the message
`"Failed to generate summary"`, and the inserted Article remains persisted
in the store with no summary: the result store is exactly the old rows
plus the new pending row, and that row's `(id, title, content, link)`
tuple is in the Backlog Reconciler's input set
`get_articles_without_summary` — nothing is rolled back or deleted. -/
theorem ingest_summary_failure (feed : Feed)
    (extract : String → Option ExtractedContent)
    (summ : String → Option String) (st : Store) (now : Nat)
    (e : Entry) (rest : List Entry) (d : ExtractedContent)
    (hb : feed.bozo = false) (he : feed.entries = e :: rest)
    (hex : article_exists st (e.link.getD "") = false)
    (hd : extract (e.link.getD "") = some d)
    (hid : st.nextId ≠ 0)
    (hsumm : summ d.content = none) :
    (process_new_articles feed extract summ st now).1
      = .error "Failed to generate summary" ∧
    (process_new_articles feed extract summ st now).2.rows
      = st.rows ++
        [⟨st.nextId, e.title.getD d.title, e.author.getD d.authors,
          e.published.getD d.publish_date, e.link.getD "", d.content, none,
          now, now⟩] ∧
    (st.nextId, e.title.getD d.title, d.content, e.link.getD "")
      ∈ get_articles_without_summary
          (process_new_articles feed extract summ st now).2 := by
  have hfetch : fetch_latest_article feed extract st now
      = (some ⟨st.nextId, e.title.getD d.title, e.author.getD d.authors,
          e.published.getD d.publish_date, e.link.getD "", d.content⟩,
         ⟨st.rows ++
           [⟨st.nextId, e.title.getD d.title, e.author.getD d.authors,
             e.published.getD d.publish_date, e.link.getD "", d.content, none,
             now, now⟩], st.nextId + 1⟩) := by
    simp [fetch_latest_article, hb, he, hex, hd, save_article, hid]
  have hrun : process_new_articles feed extract summ st now
      = (.error "Failed to generate summary",
         ⟨st.rows ++
           [⟨st.nextId, e.title.getD d.title, e.author.getD d.authors,
             e.published.getD d.publish_date, e.link.getD "", d.content, none,
             now, now⟩], st.nextId + 1⟩) := by
    simp [process_new_articles, hfetch, hsumm, summary_ok]
  refine ⟨by rw [hrun], by rw [hrun], ?_⟩
  rw [hrun]
  simp [get_articles_without_summary, List.filter_append, row_pending]

/-- C5 amended witness: concrete run (fresh link `"L2"`, succeeding
extractor, summarizer returning `None`): status is the error, and the
pending row `(1, "T", "B", "L2")` is in the reconciler's input set. -/
theorem ingest_summary_failure_witness :
    (process_new_articles feedL2 okExtract noneSumm emptyStore 7).1
      = .error "Failed to generate summary" ∧
    (1, "T", "B", "L2")
      ∈ get_articles_without_summary
          (process_new_articles feedL2 okExtract noneSumm emptyStore 7).2 := by
  have h := ingest_summary_failure feedL2 okExtract noneSumm emptyStore 7
    entryL2 [] ⟨"T", "B", "A", "D"⟩ rfl rfl (by decide) rfl (by decide) rfl
  exact ⟨h.1, by simpa using h.2.2⟩

/-! ## C10: an empty extracted body becomes the placeholder "No Content" -/

/-- C10: when the page download and parse succeed (`page = some p`) but
the body text is empty, the Content Extractor Adapter does not fail: it
returns a record whose content is the literal `"No Content"` (and
analogously `"No Title"` / `"Unknown Author"` / the current date for the
other missing fields).  Driving the orchestrator with such an extractor on
a fresh link inserts exactly one Article, whose row (the last row of the
store) has content `"No Content"`, and the summarizer is invoked on that
placeholder: its result at `"No Content"` decides the run's status (in
particular `None` there gives the summary-failure error). -/
theorem extractor_empty_body_placeholder (today : String) (p : RawPage)
    (e : Entry) (rest : List Entry) (st : Store) (now : Nat)
    (summ : String → Option String)
    (htext : p.text = "")
    (hex : article_exists st (e.link.getD "") = false)
    (hid : st.nextId ≠ 0) :
    (∃ ec, extract_article_content today (some p) = some ec ∧
      ec.content = "No Content" ∧
      (p.title = "" → ec.title = "No Title") ∧
      (p.authors = [] → ec.authors = "Unknown Author") ∧
      (p.publish_date = none → ec.publish_date = today)) ∧
    (process_new_articles ⟨false, e :: rest⟩
        (fun _ => extract_article_content today (some p)) summ st
        now).2.rows.length = st.rows.length + 1 ∧
    (∃ a, (process_new_articles ⟨false, e :: rest⟩
        (fun _ => extract_article_content today (some p)) summ st
        now).2.rows.getLast? = some a ∧ a.content = "No Content") ∧
    (summ "No Content" = none →
      (process_new_articles ⟨false, e :: rest⟩
          (fun _ => extract_article_content today (some p)) summ st now).1
        = .error "Failed to generate summary") := by
  have hec : extract_article_content today (some p)
      = some ⟨if p.title = "" then "No Title" else p.title, "No Content",
          if p.authors = [] then "Unknown Author"
          else String.intercalate ", " p.authors,
          p.publish_date.getD today⟩ := by
    simp [extract_article_content, htext]
  have hfetch : fetch_latest_article ⟨false, e :: rest⟩
      (fun _ => extract_article_content today (some p)) st now
      = (some ⟨st.nextId,
          e.title.getD (if p.title = "" then "No Title" else p.title),
          e.author.getD (if p.authors = [] then "Unknown Author"
            else String.intercalate ", " p.authors),
          e.published.getD (p.publish_date.getD today),
          e.link.getD "", "No Content"⟩,
         ⟨st.rows ++
           [⟨st.nextId,
             e.title.getD (if p.title = "" then "No Title" else p.title),
             e.author.getD (if p.authors = [] then "Unknown Author"
               else String.intercalate ", " p.authors),
             e.published.getD (p.publish_date.getD today),
             e.link.getD "", "No Content", none, now, now⟩],
          st.nextId + 1⟩) := by
    simp [fetch_latest_article, hex, hec, save_article, hid]
  refine ⟨⟨_, hec, rfl, fun h => by simp [h], fun h => by simp [h],
    fun h => by simp [h]⟩, ?_, ?_, ?_⟩
  · by_cases hs : summary_ok (summ "No Content")
    · simp [process_new_articles, hfetch, hs, update_fst, rows_length_update]
    · simp [process_new_articles, hfetch, hs]
  · by_cases hs : summary_ok (summ "No Content")
    · simp only [process_new_articles, hfetch, hs, update_fst, if_true,
        update_rows_eq, List.map_append, List.map_cons, List.map_nil]
      refine ⟨_, List.getLast?_concat _, ?_⟩
      simp
    · simp only [process_new_articles, hfetch, hs, Bool.false_eq_true,
        if_false]
      exact ⟨_, List.getLast?_concat _, rfl⟩
  · intro hsumm
    simp [process_new_articles, hfetch, hsumm, summary_ok]

/-- C10 witness: a parse-succeeded page with every field empty, fresh link
`"L2"`, empty store, summarizer failing on the placeholder: the extractor
returns the all-fallback record, one row is inserted with content
`"No Content"`, and the run reports the summary-failure error. -/
theorem extractor_empty_body_placeholder_witness :
    extract_article_content "2026-10-12" (some emptyPage)
      = some ⟨"No Title", "No Content", "Unknown Author", "2026-10-12"⟩ ∧
    (process_new_articles ⟨false, [entryL2]⟩
        (fun _ => extract_article_content "2026-10-12" (some emptyPage))
        noneSumm emptyStore 0).2.rows.length = 1 ∧
    (process_new_articles ⟨false, [entryL2]⟩
        (fun _ => extract_article_content "2026-10-12" (some emptyPage))
        noneSumm emptyStore 0).1 = .error "Failed to generate summary" := by
  have h := extractor_empty_body_placeholder "2026-10-12" emptyPage entryL2 []
    emptyStore 0 noneSumm rfl (by decide) (by decide)
  exact ⟨by decide, by simpa using h.2.1, h.2.2.2 rfl⟩

/-! ## C1: ingestion is idempotent -/

/-- Exhaustive case analysis of one orchestrator run: the store grows by
at most one row; a run that sees a malformed or empty feed leaves the
store untouched; and after any run against a feed with a most-recent
entry, either that entry's link is present in the resulting store, or the
store is untouched because the extractor failed on that link. -/
theorem ingest_cases (feed : Feed)
    (extract : String → Option ExtractedContent)
    (summ : String → Option String) (st : Store) (now : Nat) :
    ((process_new_articles feed extract summ st now).2.rows.length
        ≤ st.rows.length + 1) ∧
    ((feed.bozo = true ∨ feed.entries = []) →
      (process_new_articles feed extract summ st now).2 = st) ∧
    (∀ e rest, feed.bozo = false → feed.entries = e :: rest →
      article_exists (process_new_articles feed extract summ st now).2
          (e.link.getD "") = true ∨
        ((process_new_articles feed extract summ st now).2 = st ∧
          extract (e.link.getD "") = none)) := by
  rcases feed with ⟨bozo, entries⟩
  cases bozo with
  | true =>
    have hrun : process_new_articles ⟨true, entries⟩ extract summ st now
        = (.no_new_articles, st) := by
      simp [process_new_articles, fetch_latest_article]
    exact ⟨by rw [hrun]; exact Nat.le_succ _, fun _ => by rw [hrun],
      fun e rest hb _ => by simp at hb⟩
  | false =>
    cases entries with
    | nil =>
      have hrun : process_new_articles ⟨false, []⟩ extract summ st now
          = (.no_new_articles, st) := by
        simp [process_new_articles, fetch_latest_article]
      exact ⟨by rw [hrun]; exact Nat.le_succ _, fun _ => by rw [hrun],
        fun e rest _ he => by simp at he⟩
    | cons e₀ rest₀ =>
      by_cases hex : article_exists st (e₀.link.getD "")
      · have hrun : process_new_articles ⟨false, e₀ :: rest₀⟩ extract summ st
            now = (.no_new_articles, st) := by
          simp [process_new_articles, fetch_latest_article, hex]
        refine ⟨by rw [hrun]; exact Nat.le_succ _, fun h => by rw [hrun], ?_⟩
        intro e rest _ he
        injection he with h1 h2
        subst h1
        rw [hrun]
        exact Or.inl hex
      · cases hx : extract (e₀.link.getD "") with
        | none =>
          have hrun : process_new_articles ⟨false, e₀ :: rest₀⟩ extract summ
              st now = (.no_new_articles, st) := by
            simp [process_new_articles, fetch_latest_article, hex, hx]
          refine ⟨by rw [hrun]; exact Nat.le_succ _, fun h => by rw [hrun], ?_⟩
          intro e rest _ he
          injection he with h1 h2
          subst h1
          rw [hrun]
          exact Or.inr ⟨rfl, hx⟩
        | some d =>
          have hmem : article_exists
              (⟨st.rows ++
                [⟨st.nextId, e₀.title.getD d.title, e₀.author.getD d.authors,
                  e₀.published.getD d.publish_date, e₀.link.getD "",
                  d.content, none, now, now⟩], st.nextId + 1⟩ : Store)
              (e₀.link.getD "") = true := by
            have := article_exists_of_mem
              (⟨st.rows ++
                [⟨st.nextId, e₀.title.getD d.title, e₀.author.getD d.authors,
                  e₀.published.getD d.publish_date, e₀.link.getD "",
                  d.content, none, now, now⟩], st.nextId + 1⟩ : Store)
              ⟨st.nextId, e₀.title.getD d.title, e₀.author.getD d.authors,
                e₀.published.getD d.publish_date, e₀.link.getD "",
                d.content, none, now, now⟩ (by simp)
            simpa using this
          by_cases hid : st.nextId = 0
          · have hfetch : fetch_latest_article ⟨false, e₀ :: rest₀⟩ extract
                st now
                = (none, ⟨st.rows ++
                    [⟨st.nextId, e₀.title.getD d.title,
                      e₀.author.getD d.authors,
                      e₀.published.getD d.publish_date, e₀.link.getD "",
                      d.content, none, now, now⟩], st.nextId + 1⟩) := by
              simp [fetch_latest_article, hex, hx, save_article, hid]
            have hrun : process_new_articles ⟨false, e₀ :: rest₀⟩ extract
                summ st now
                = (.no_new_articles, ⟨st.rows ++
                    [⟨st.nextId, e₀.title.getD d.title,
                      e₀.author.getD d.authors,
                      e₀.published.getD d.publish_date, e₀.link.getD "",
                      d.content, none, now, now⟩], st.nextId + 1⟩) := by
              simp [process_new_articles, hfetch]
            refine ⟨by rw [hrun]; simp, fun h => by simp at h, ?_⟩
            intro e rest _ he
            injection he with h1 h2
            subst h1
            rw [hrun]
            exact Or.inl hmem
          · have hfetch : fetch_latest_article ⟨false, e₀ :: rest₀⟩ extract
                st now
                = (some ⟨st.nextId, e₀.title.getD d.title,
                    e₀.author.getD d.authors,
                    e₀.published.getD d.publish_date, e₀.link.getD "",
                    d.content⟩,
                   ⟨st.rows ++
                    [⟨st.nextId, e₀.title.getD d.title,
                      e₀.author.getD d.authors,
                      e₀.published.getD d.publish_date, e₀.link.getD "",
                      d.content, none, now, now⟩], st.nextId + 1⟩) := by
              simp [fetch_latest_article, hex, hx, save_article, hid]
            by_cases hs : summary_ok (summ d.content)
            · have hrun : process_new_articles ⟨false, e₀ :: rest₀⟩ extract
                  summ st now
                  = (.success ⟨st.nextId, e₀.title.getD d.title,
                      e₀.author.getD d.authors,
                      e₀.published.getD d.publish_date, e₀.link.getD "",
                      d.content⟩ ((summ d.content).getD ""),
                     (update_article_summary
                       ⟨st.rows ++
                        [⟨st.nextId, e₀.title.getD d.title,
                          e₀.author.getD d.authors,
                          e₀.published.getD d.publish_date, e₀.link.getD "",
                          d.content, none, now, now⟩], st.nextId + 1⟩
                       st.nextId ((summ d.content).getD "") now).2) := by
                simp [process_new_articles, hfetch, hs, update_fst]
              refine ⟨by rw [hrun]; simp [rows_length_update],
                fun h => by simp at h, ?_⟩
              intro e rest _ he
              injection he with h1 h2
              subst h1
              rw [hrun]
              exact Or.inl (by rw [article_exists_update]; exact hmem)
            · have hrun : process_new_articles ⟨false, e₀ :: rest₀⟩ extract
                  summ st now
                  = (.error "Failed to generate summary",
                     ⟨st.rows ++
                      [⟨st.nextId, e₀.title.getD d.title,
                        e₀.author.getD d.authors,
                        e₀.published.getD d.publish_date, e₀.link.getD "",
                        d.content, none, now, now⟩], st.nextId + 1⟩) := by
                simp [process_new_articles, hfetch, hs]
              refine ⟨by rw [hrun]; simp, fun h => by simp at h, ?_⟩
              intro e rest _ he
              injection he with h1 h2
              subst h1
              rw [hrun]
              exact Or.inl hmem

/-- C1: running the Ingestion Orchestrator twice in succession against an
unchanged feed, extractor and summarizer inserts at most one new Article
in total (first conjunct: the second run changes nothing and reports
`no_new_articles`; second conjunct: the first run adds at most one row);
and a duplicate entry — one whose link is already in the store — causes no
insert and reports `no_new_articles` for **every** extractor `extract`
(the extractor is never consulted: existence is checked by link before any
extraction), which is the third conjunct's universal quantification. -/
theorem ingest_idempotent (feed : Feed)
    (extract : String → Option ExtractedContent)
    (summ : String → Option String) (st : Store) (now₁ now₂ : Nat) :
    (process_new_articles feed extract summ
        (process_new_articles feed extract summ st now₁).2 now₂
      = (.no_new_articles, (process_new_articles feed extract summ st now₁).2)) ∧
    ((process_new_articles feed extract summ st now₁).2.rows.length
        ≤ st.rows.length + 1) ∧
    (∀ e rest, feed.bozo = false → feed.entries = e :: rest →
      article_exists st (e.link.getD "") = true →
      process_new_articles feed extract summ st now₁
        = (.no_new_articles, st)) := by
  have hcases := ingest_cases feed extract summ st now₁
  refine ⟨?_, hcases.1, ?_⟩
  · rcases feed with ⟨bozo, entries⟩
    cases bozo with
    | true => simp [process_new_articles, fetch_latest_article]
    | false =>
      cases entries with
      | nil => simp [process_new_articles, fetch_latest_article]
      | cons e₀ rest₀ =>
        rcases hcases.2.2 e₀ rest₀ rfl rfl with hex1 | ⟨hst, hx⟩
        · generalize hst1 : (process_new_articles ⟨false, e₀ :: rest₀⟩
            extract summ st now₁).2 = st₁ at hex1 ⊢
          simp [process_new_articles, fetch_latest_article, hex1]
        · rw [hst]
          by_cases hex : article_exists st (e₀.link.getD "")
          · simp [process_new_articles, fetch_latest_article, hex]
          · simp [process_new_articles, fetch_latest_article, hex, hx]
  · intro e rest hb he hex
    simp [process_new_articles, fetch_latest_article, hb, he, hex]

/-- C1 witness: concrete feed whose entry's link `"L"` is already in the
one-row store `storeL`: both runs report `no_new_articles` and the store
never changes. -/
theorem ingest_idempotent_witness :
    process_new_articles feedL okExtract okSumm
        (process_new_articles feedL okExtract okSumm storeL 0).2 1
      = (.no_new_articles, (process_new_articles feedL okExtract okSumm
          storeL 0).2) ∧
    process_new_articles feedL okExtract okSumm storeL 0
      = (.no_new_articles, storeL) := by
  have h := ingest_idempotent feedL okExtract okSumm storeL 0 1
  exact ⟨h.1, h.2.2 entryL [] rfl rfl (by decide)⟩

/-! ## C4: one reconciler pass tolerates partial summarization failure -/

theorem filter_length_partition {α : Type} (p : α → Bool) (l : List α) :
    (l.filter p).length + (l.filter (fun a => !(p a))).length = l.length := by
  induction l with
  | nil => simp
  | cons a t ih =>
    by_cases h : p a <;> simp [List.filter_cons, h] <;> omega

theorem backlog_count (summ : Nat → String → Option String) (now : Nat) :
    ∀ (rows : List (Nat × String × String × String)) (st : Store) (acc : Nat),
      (backlog_loop summ now rows st acc).1
        = acc + (rows.filter (fun q => summary_ok (summ q.1 q.2.2.1))).length := by
  intro rows
  induction rows with
  | nil => intro st acc; simp [backlog_loop]
  | cons q rest ih =>
    intro st acc
    rcases q with ⟨j, t, c, l⟩
    by_cases hs : summary_ok (summ j c)
    · have hstep : backlog_loop summ now ((j, t, c, l) :: rest) st acc
          = backlog_loop summ now rest
              (update_article_summary st j ((summ j c).getD "") now).2
              (acc + 1) := by
        simp [backlog_loop, hs, update_fst]
      rw [hstep, ih, List.filter_cons]
      simp [hs]
      omega
    · have hstep : backlog_loop summ now ((j, t, c, l) :: rest) st acc
          = backlog_loop summ now rest st acc := by
        simp [backlog_loop, hs]
      rw [hstep, ih, List.filter_cons]
      simp [hs]

theorem backlog_len (summ : Nat → String → Option String) (now : Nat) :
    ∀ (rows : List (Nat × String × String × String)) (st : Store) (acc : Nat),
      (backlog_loop summ now rows st acc).2.rows.length = st.rows.length := by
  intro rows
  induction rows with
  | nil => intro st acc; simp [backlog_loop]
  | cons q rest ih =>
    intro st acc
    rcases q with ⟨j, t, c, l⟩
    by_cases hs : summary_ok (summ j c)
    · have hstep : backlog_loop summ now ((j, t, c, l) :: rest) st acc
          = backlog_loop summ now rest
              (update_article_summary st j ((summ j c).getD "") now).2
              (acc + 1) := by
        simp [backlog_loop, hs, update_fst]
      rw [hstep, ih, rows_length_update]
    · have hstep : backlog_loop summ now ((j, t, c, l) :: rest) st acc
          = backlog_loop summ now rest st acc := by
        simp [backlog_loop, hs]
      rw [hstep, ih]

theorem backlog_frame (summ : Nat → String → Option String) (now : Nat) :
    ∀ (rows : List (Nat × String × String × String)) (st : Store) (acc : Nat)
      (i : Nat) (h : i < st.rows.length),
      (∀ q ∈ rows, summary_ok (summ q.1 q.2.2.1) = true →
        q.1 ≠ (st.rows.get ⟨i, h⟩).id) →
      ∃ h2 : i < (backlog_loop summ now rows st acc).2.rows.length,
        (backlog_loop summ now rows st acc).2.rows.get ⟨i, h2⟩
          = st.rows.get ⟨i, h⟩ := by
  intro rows
  induction rows with
  | nil => intro st acc i h _; exact ⟨h, rfl⟩
  | cons q rest ih =>
    intro st acc i h hq
    rcases q with ⟨j, t, c, l⟩
    by_cases hs : summary_ok (summ j c)
    · have hne : j ≠ (st.rows.get ⟨i, h⟩).id :=
        hq (j, t, c, l) (List.mem_cons_self _ _) hs
      have hlen : i < (update_article_summary st j ((summ j c).getD "")
          now).2.rows.length := by
        rw [rows_length_update]; exact h
      have hget : (update_article_summary st j ((summ j c).getD "")
            now).2.rows.get ⟨i, hlen⟩ = st.rows.get ⟨i, h⟩ := by
        simp only [update_rows_eq]
        rw [List.get_map]
        rw [if_neg (fun hh => hne hh.symm)]
      have hq' : ∀ q ∈ rest, summary_ok (summ q.1 q.2.2.1) = true →
          q.1 ≠ ((update_article_summary st j ((summ j c).getD "")
            now).2.rows.get ⟨i, hlen⟩).id := by
        intro q hmem hok
        rw [hget]
        exact hq q (by simp [hmem]) hok
      have hres := ih (update_article_summary st j ((summ j c).getD "")
        now).2 (acc + 1) i hlen hq'
      rcases hres with ⟨h2, he⟩
      have hstep : backlog_loop summ now ((j, t, c, l) :: rest) st acc
          = backlog_loop summ now rest
              (update_article_summary st j ((summ j c).getD "") now).2
              (acc + 1) := by
        simp [backlog_loop, hs, update_fst]
      rw [hstep]
      exact ⟨h2, he.trans hget⟩
    · have hres := ih st acc i h
        (fun q hmem hok => hq q (by simp [hmem]) hok)
      rcases hres with ⟨h2, he⟩
      have hstep : backlog_loop summ now ((j, t, c, l) :: rest) st acc
          = backlog_loop summ now rest st acc := by
        simp [backlog_loop, hs]
      rw [hstep]
      exact ⟨h2, he⟩

theorem process_existing_eq (summ : Nat → String → Option String)
    (st : Store) (now : Nat) :
    process_existing_articles_without_summary summ st now
      = (((backlog_loop summ now (get_articles_without_summary st) st 0).1,
          (get_articles_without_summary st).length),
         (backlog_loop summ now (get_articles_without_summary st) st 0).2) := by
  unfold process_existing_articles_without_summary
  rcases hbl : backlog_loop summ now (get_articles_without_summary st) st 0
    with ⟨c, s⟩
  simp [hbl]

/-- C4: assuming distinct row ids (sqlite's primary key), one Backlog
Reconciler pass over a store with `N` pending Articles, where the
Summarizer Adapter fails for exactly the pending rows in `S` (those on
whose id/content `summ` is falsy), reports `total_articles = N` and
`processed_count = N - |S|`, visits rows sequentially without aborting
(the row count of the store is preserved), and every pending row whose
summarization fails is left completely untouched at its position. -/
theorem backlog_pass_tolerance (summ : Nat → String → Option String)
    (st : Store) (now : Nat)
    (hids : (st.rows.map Article.id).Nodup) :
    ((process_existing_articles_without_summary summ st now).1.2
      = (get_articles_without_summary st).length) ∧
    ((process_existing_articles_without_summary summ st now).1.1
      = (get_articles_without_summary st).length
        - ((get_articles_without_summary st).filter
            (fun q => !(summary_ok (summ q.1 q.2.2.1)))).length) ∧
    ((process_existing_articles_without_summary summ st now).2.rows.length
      = st.rows.length) ∧
    (∀ (i : Nat) (h : i < st.rows.length),
      row_pending (st.rows.get ⟨i, h⟩) = true →
      summary_ok (summ (st.rows.get ⟨i, h⟩).id (st.rows.get ⟨i, h⟩).content)
        = false →
      ∃ h2 : i < (process_existing_articles_without_summary summ st
          now).2.rows.length,
        (process_existing_articles_without_summary summ st now).2.rows.get
          ⟨i, h2⟩ = st.rows.get ⟨i, h⟩) := by
  rw [process_existing_eq]
  refine ⟨rfl, ?_, backlog_len summ now _ st 0, ?_⟩
  · have hc := backlog_count summ now (get_articles_without_summary st) st 0
    have hp := filter_length_partition
      (fun q => summary_ok (summ q.1 q.2.2.1))
      (get_articles_without_summary st)
    simp only [hc]
    omega
  · intro i h hpend hfail
    apply backlog_frame summ now (get_articles_without_summary st) st 0 i h
    intro q hmem hok hqid
    have hmem' := hmem
    simp only [get_articles_without_summary, List.mem_map,
      List.mem_filter] at hmem'
    rcases hmem' with ⟨b, ⟨hbmem, _⟩, hbq⟩
    have hbid : b.id = (st.rows.get ⟨i, h⟩).id := by
      rw [← hbq] at hqid
      exact hqid
    have hba : b = st.rows.get ⟨i, h⟩ :=
      List.inj_on_of_nodup_map hids hbmem (st.rows.get_mem i h) hbid
    rw [← hbq] at hok
    simp only at hok
    rw [hba] at hok
    rw [hok] at hfail
    exact absurd hfail (by simp)

/-- C4 witness: three pending rows (ids 1, 2, 3) and a summarizer that
fails exactly on id 2: the pass reports `(processed_count, total) =
(2, 3)` and leaves row 2 untouched (spec Scenario D). -/
theorem backlog_pass_tolerance_witness :
    (process_existing_articles_without_summary summFail2 storeThree 9).1
      = (2, 3) ∧
    ∃ h2 : 1 < (process_existing_articles_without_summary summFail2
        storeThree 9).2.rows.length,
      (process_existing_articles_without_summary summFail2 storeThree
          9).2.rows.get ⟨1, h2⟩
        = ⟨2, "T2", "A2", "D2", "L2", "B2", some "", 0, 0⟩ := by
  have h := backlog_pass_tolerance summFail2 storeThree 9 (by decide)
  refine ⟨by decide, ?_⟩
  have h4 := h.2.2.2 1 (by decide) (by decide) (by decide)
  rcases h4 with ⟨h2, he⟩
  exact ⟨h2, he⟩

end QuantumNews
